import Mathlib

/-!
Verification of the skin-disease diagnosis application (stream.py).

The application downloads a pretrained weight file, builds a two-backbone
fusion network (HybridModel), preprocesses an uploaded image
(SkinDiseaseTransform), runs one forward pass, applies softmax, builds a
label-to-confidence dictionary (predict), and reports either the top label
or a fallback when the top confidence is below 0.95 (main).

The embedding below follows the source:
  - images are modelled as a color mode plus a pixel function;
  - tensors as a channel count, height, width and a value function over ℝ;
  - the network layers as functions on lists of reals, with dropout taking
    an explicit mask and a train/eval flag;
  - the Python dict built in predict as an association list with Python's
    insert-or-overwrite semantics;
  - the filesystem seen by download_model as a list of existing paths plus
    a counter of remote fetches.
-/

namespace SkinApp

/-- Color modes a PIL image can carry: 3-channel RGB, 8-bit grayscale (L),
RGBA with alpha, and palette (P). -/
inductive ColorMode
  | RGB
  | L
  | RGBA
  | P
deriving DecidableEq

/-- Number of raw channels the tensor conversion produces for each mode
(torchvision ToTensor keeps the image's native channel count). -/
def ColorMode.channels : ColorMode → Nat
  | .RGB => 3
  | .L => 1
  | .RGBA => 4
  | .P => 1

/-- A PIL image: a color mode, dimensions, and a pixel function
pix c x y giving the value of channel c at column x, row y. -/
structure PILImage where
  mode : ColorMode
  width : Nat
  height : Nat
  pix : Nat → Nat → Nat → ℝ

/-- PIL Image.resize((w, h)): a direct rescale to the new dimensions with
no cropping; the mode is preserved, and each target pixel samples the
source at the proportionally scaled coordinate. -/
def PILImage.resize (img : PILImage) (w h : Nat) : PILImage :=
  { mode := img.mode, width := w, height := h,
    pix := fun c x y => img.pix c (x * img.width / w) (y * img.height / h) }

/-- Horizontal mirror, the effect of RandomHorizontalFlip(p=1.0): column x
is read from column width - 1 - x; mode and dimensions are preserved. -/
def PILImage.hflip (img : PILImage) : PILImage :=
  { img with pix := fun c x y => img.pix c (img.width - 1 - x) y }

/-- Two images show the same picture: same mode and dimensions, and equal
pixel values at every in-range channel and coordinate. -/
def PILImage.sameImage (a b : PILImage) : Prop :=
  a.mode = b.mode ∧ a.width = b.width ∧ a.height = b.height ∧
    ∀ c x y, c < a.mode.channels → x < a.width → y < a.height →
      a.pix c x y = b.pix c x y

/-- A rank-3 tensor in channel-height-width order. -/
structure Tensor3 where
  channels : Nat
  height : Nat
  width : Nat
  val : Nat → Nat → Nat → ℝ

/-- torchvision ToTensor: the image's native channels, scaled from byte
values to [0,1]; no mode conversion is performed. -/
noncomputable def toTensor (img : PILImage) : Tensor3 :=
  { channels := img.mode.channels, height := img.height, width := img.width,
    val := fun c y x => img.pix c x y / 255 }

/-- torchvision Normalize(mean, std): per-channel affine normalization
(value - mean[c]) / std[c]; the channel count is unchanged. -/
noncomputable def normalizeChannels (mean std : List ℝ) (t : Tensor3) : Tensor3 :=
  { t with val := fun c y x => (t.val c y x - mean.getD c 0) / std.getD c 1 }

/-- The ImageNet channel means [0.485, 0.456, 0.406] from stream.py. -/
noncomputable def imagenetMean : List ℝ := [0.485, 0.456, 0.406]

/-- The ImageNet channel standard deviations [0.229, 0.224, 0.225]. -/
noncomputable def imagenetStd : List ℝ := [0.229, 0.224, 0.225]

/-- The bundle SkinDiseaseTransform.__call__ returns: the original image,
the 224x224 resize, the possibly flipped image, and the final tensor. -/
structure TransformResult where
  original : PILImage
  resized : PILImage
  flipped : PILImage
  tensor : Tensor3

/-- SkinDiseaseTransform.__call__(img, apply_augmentation): resize to
224x224, flip horizontally when apply_augmentation is set (the transform
uses RandomHorizontalFlip(p=1.0), so the flip is deterministic), convert
to a tensor and normalize with the ImageNet statistics. -/
noncomputable def SkinDiseaseTransform (img : PILImage) (apply_augmentation : Bool) :
    TransformResult :=
  let img_resized := img.resize 224 224
  let img_flipped := if apply_augmentation then img_resized.hflip else img_resized
  { original := img, resized := img_resized, flipped := img_flipped,
    tensor := normalizeChannels imagenetMean imagenetStd (toTensor img_flipped) }

/-- Dot product of a weight row with an input vector. -/
noncomputable def dot (w x : List ℝ) : ℝ := (List.zipWith (fun a b => a * b) w x).sum

/-- nn.Linear: one output per weight row, each the row's dot product with
the input plus the matching bias entry. -/
noncomputable def linear (W : List (List ℝ)) (b : List ℝ) (x : List ℝ) : List ℝ :=
  List.zipWith (fun row bi => dot row x + bi) W b

/-- nn.ReLU applied elementwise. -/
noncomputable def relu (x : List ℝ) : List ℝ := x.map (fun v => max v 0)

/-- nn.Dropout(p): in training mode each position is zeroed where the
random mask fires and the survivors are rescaled by 1/(1-p); in eval
mode the input passes through unchanged. -/
noncomputable def dropoutLayer (p : ℝ) (training : Bool) (mask : Nat → Bool)
    (x : List ℝ) : List ℝ :=
  if training then x.enum.map (fun iv => if mask iv.1 then 0 else iv.2 / (1 - p)) else x

/-- HybridModel: densenet121 and efficientnet_b0 with their classifiers
replaced by Identity, so each acts as a feature extractor, plus the
two-layer head fc = Linear(1024+1280, 512), ReLU, Dropout(0.5),
Linear(512, num_classes). The backbones are modelled as functions from
the input tensor to their feature lists; training records whether the
module is in train or eval mode. -/
structure HybridModel where
  densenet : Tensor3 → List ℝ
  efficientnet : Tensor3 → List ℝ
  fc1W : List (List ℝ)
  fc1b : List ℝ
  fc2W : List (List ℝ)
  fc2b : List ℝ
  training : Bool

/-- HybridModel.forward: x1 = densenet(x), x2 = efficientnet(x),
concatenate along the feature dimension, then apply the fc head. -/
noncomputable def HybridModel.forward (m : HybridModel) (mask : Nat → Bool)
    (x : Tensor3) : List ℝ :=
  let x1 := m.densenet x
  let x2 := m.efficientnet x
  let xc := x1 ++ x2
  linear m.fc2W m.fc2b (dropoutLayer 0.5 m.training mask (relu (linear m.fc1W m.fc1b xc)))

/-- Shape discipline of HybridModel for a given num_classes: densenet121
yields 1024 features, efficientnet_b0 yields 1280, the first linear layer
is 512 x (1024+1280) and the second num_classes x 512, with biases to
match. -/
def HybridModel.wf (m : HybridModel) (num_classes : Nat) : Prop :=
  (∀ x, (m.densenet x).length = 1024) ∧
  (∀ x, (m.efficientnet x).length = 1280) ∧
  m.fc1W.length = 512 ∧ m.fc1b.length = 512 ∧
  (∀ row ∈ m.fc1W, row.length = 1024 + 1280) ∧
  m.fc2W.length = num_classes ∧ m.fc2b.length = num_classes ∧
  (∀ row ∈ m.fc2W, row.length = 512)

/-- The weights torch.load reads from the checkpoint file: every parameter
of the two backbones (abstracted to the feature maps they induce) and of
the fc head. -/
structure StateDict where
  densenet : Tensor3 → List ℝ
  efficientnet : Tensor3 → List ℝ
  fc1W : List (List ℝ)
  fc1b : List ℝ
  fc2W : List (List ℝ)
  fc2b : List ℝ

/-- load_model: build HybridModel, load the state dict, and call
model.eval(), which sets training to false so dropout is disabled. -/
def load_model (sd : StateDict) : HybridModel :=
  { densenet := sd.densenet, efficientnet := sd.efficientnet,
    fc1W := sd.fc1W, fc1b := sd.fc1b, fc2W := sd.fc2W, fc2b := sd.fc2b,
    training := false }

/-- A concrete all-zero model of the reference shapes, used to instantiate
shape theorems. -/
noncomputable def zeroModel : HybridModel :=
  { densenet := fun _ => List.replicate 1024 0,
    efficientnet := fun _ => List.replicate 1280 0,
    fc1W := List.replicate 512 (List.replicate (1024 + 1280) 0),
    fc1b := List.replicate 512 0,
    fc2W := List.replicate 2 (List.replicate 512 0),
    fc2b := List.replicate 2 0,
    training := false }

/-- A concrete all-zero 3x224x224 tensor. -/
noncomputable def zeroTensor : Tensor3 :=
  { channels := 3, height := 224, width := 224, val := fun _ _ _ => 0 }

/-- A concrete 10x10 grayscale image (PIL mode L). -/
noncomputable def grayImage : PILImage :=
  { mode := ColorMode.L, width := 10, height := 10, pix := fun _ _ _ => 0 }

/-- torch.nn.functional.softmax along the class dimension: each logit is
exponentiated and divided by the sum of the exponentials. -/
noncomputable def softmax (v : List ℝ) : List ℝ :=
  v.map (fun z => Real.exp z / (v.map Real.exp).sum)

/-- One Python dict assignment d[k] = v on a dict represented as an
association list in insertion order: an existing key keeps its position
and has its value overwritten, a new key is appended. -/
def pyDictInsert (m : List (String × ℝ)) (k : String) (v : ℝ) : List (String × ℝ) :=
  if m.any (fun kv => kv.1 == k) then
    m.map (fun kv => if kv.1 == k then (kv.1, v) else kv)
  else m ++ [(k, v)]

/-- The dict a Python dict comprehension builds from a sequence of
key-value pairs, inserting them left to right. -/
def pyDictOfPairs (l : List (String × ℝ)) : List (String × ℝ) :=
  l.foldl (fun m kv => pyDictInsert m kv.1 kv.2) []

/-- The confidence dictionary predict builds from the model outputs
(stream.py lines 163-165): probabilities = softmax(outputs), then the
comprehension over i in range(len(class_names)) pairing class_names[i]
with probabilities[0][i]. Reading probabilities[0][i] raises IndexError
exactly when class_names is longer than the probability vector, modelled
as none; otherwise the pairs are class_names zipped with the
probabilities (the zip truncates the probabilities to the shorter
class_names when class_names is shorter). -/
noncomputable def predictLogits (class_names : List String) (outputs : List ℝ) :
    Option (List (String × ℝ)) :=
  let probabilities := softmax outputs
  if class_names.length ≤ probabilities.length then
    some (pyDictOfPairs (class_names.zip probabilities))
  else none

/-- predict(image, model, class_names) with the augmentation coin and the
dropout mask made explicit: transform the image, run the model on the
tensor, and build the confidence dictionary from the outputs. -/
noncomputable def predict (image : PILImage) (m : HybridModel) (aug : Bool)
    (mask : Nat → Bool) (class_names : List String) : Option (List (String × ℝ)) :=
  predictLogits class_names (m.forward mask (SkinDiseaseTransform image aug).tensor)

/-- One step of Python max over (label, confidence) pairs keyed on the
confidence: keep the incumbent unless the challenger is strictly larger,
so the first maximal element wins ties. -/
noncomputable def pyMaxStep (best y : String × ℝ) : String × ℝ :=
  if best.2 < y.2 then y else best

/-- Python max(confidences.items(), key=lambda x: x[1]): none on an empty
dict, otherwise the first pair of maximal confidence. -/
noncomputable def pyMaxBySnd (l : List (String × ℝ)) : Option (String × ℝ) :=
  match l with
  | [] => none
  | x :: xs => some (xs.foldl pyMaxStep x)

/-- The diagnosis string main displays (stream.py line 201):
"Néant" (the none/uncertain fallback) when the maximal confidence is
strictly below 0.95, otherwise the top label capitalized. -/
noncomputable def displayedDiagnosis (confidences : List (String × ℝ)) : Option String :=
  (pyMaxBySnd confidences).map
    (fun pc => if pc.2 < 0.95 then "Néant" else pc.1.capitalize)

/-- The local state download_model sees: which paths exist on disk, plus a
counter of how many remote fetches have been performed. -/
structure FileSys where
  files : List String
  downloads : Nat

/-- The fixed local path of the weight file in download_model. -/
def modelFileName : String := "hybrid_skin_disease_model1.pth"

/-- gdown.download(url, output): a remote fetch that writes the output
path and counts as one download. -/
def gdown_download (fs : FileSys) (output : String) : FileSys :=
  { files := output :: fs.files, downloads := fs.downloads + 1 }

/-- download_model: if the output path does not already exist, fetch it
from the remote store; either way return the fixed local path. -/
def download_model (fs : FileSys) : String × FileSys :=
  if modelFileName ∈ fs.files then (modelFileName, fs)
  else (modelFileName, gdown_download fs modelFileName)

/-! Helper lemmas about the embedded operations. -/

lemma softmax_length (v : List ℝ) : (softmax v).length = v.length :=
  List.length_map _ _

lemma sum_map_exp_pos (v : List ℝ) (h : v ≠ []) : 0 < (v.map Real.exp).sum := by
  refine List.sum_pos _ ?_ (by simpa using h)
  intro x hx
  obtain ⟨z, _, rfl⟩ := List.mem_map.mp hx
  exact Real.exp_pos z

lemma list_sum_map_div (l : List ℝ) (c : ℝ) :
    (l.map (fun x => x / c)).sum = l.sum / c := by
  induction l with
  | nil => simp
  | cons a t ih => simp [ih, add_div]

lemma softmax_sum_one (v : List ℝ) (h : v ≠ []) : (softmax v).sum = 1 := by
  have hS := sum_map_exp_pos v h
  have hmm : softmax v = (v.map Real.exp).map (fun x => x / (v.map Real.exp).sum) := by
    rw [List.map_map]
    rfl
  rw [hmm, list_sum_map_div, div_self (ne_of_gt hS)]

lemma pyDictInsert_fresh (m : List (String × ℝ)) (k : String) (v : ℝ)
    (h : k ∉ m.map Prod.fst) : pyDictInsert m k v = m ++ [(k, v)] := by
  unfold pyDictInsert
  rw [if_neg]
  intro hany
  obtain ⟨kv, hmem, hk⟩ := List.any_eq_true.mp hany
  exact h (List.mem_map.mpr ⟨kv, hmem, by simpa using hk⟩)

lemma pyDict_foldl_fresh (l : List (String × ℝ)) :
    ∀ acc : List (String × ℝ), (acc.map Prod.fst ++ l.map Prod.fst).Nodup →
      l.foldl (fun m kv => pyDictInsert m kv.1 kv.2) acc = acc ++ l := by
  induction l with
  | nil => intro acc _; simp
  | cons kv t ih =>
    intro acc h
    have hfst : kv.1 ∉ acc.map Prod.fst := by
      rw [List.nodup_append] at h
      intro hmem
      exact h.2.2 hmem (by simp)
    rw [List.foldl_cons, pyDictInsert_fresh acc kv.1 kv.2 hfst]
    have h' : ((acc ++ [kv]).map Prod.fst ++ t.map Prod.fst).Nodup := by
      simpa [List.append_assoc] using h
    rw [ih (acc ++ [kv]) h']
    simp

lemma pyDictOfPairs_nodup (l : List (String × ℝ)) (h : (l.map Prod.fst).Nodup) :
    pyDictOfPairs l = l := by
  unfold pyDictOfPairs
  simpa using pyDict_foldl_fresh l [] (by simpa using h)

lemma pyMaxStep_or (a y : String × ℝ) : pyMaxStep a y = a ∨ pyMaxStep a y = y := by
  unfold pyMaxStep
  split
  · exact Or.inr rfl
  · exact Or.inl rfl

lemma pyMaxStep_le_left (a y : String × ℝ) : a.2 ≤ (pyMaxStep a y).2 := by
  unfold pyMaxStep
  split
  · exact le_of_lt (by assumption)
  · exact le_refl _

lemma pyMaxStep_le_right (a y : String × ℝ) : y.2 ≤ (pyMaxStep a y).2 := by
  unfold pyMaxStep
  split
  · exact le_refl _
  · exact le_of_not_lt (by assumption)

lemma foldl_pyMaxStep_spec (t : List (String × ℝ)) :
    ∀ a : String × ℝ,
      (t.foldl pyMaxStep a = a ∨ t.foldl pyMaxStep a ∈ t) ∧
      a.2 ≤ (t.foldl pyMaxStep a).2 ∧
      ∀ q ∈ t, q.2 ≤ (t.foldl pyMaxStep a).2 := by
  induction t with
  | nil => intro a; exact ⟨Or.inl rfl, le_refl _, by simp⟩
  | cons y t ih =>
    intro a
    obtain ⟨hmem, hle, hall⟩ := ih (pyMaxStep a y)
    rw [List.foldl_cons]
    refine ⟨?_, ?_, ?_⟩
    · rcases hmem with h | h
      · rw [h]
        rcases pyMaxStep_or a y with h2 | h2
        · exact Or.inl h2
        · rw [h2]
          exact Or.inr (List.mem_cons_self y t)
      · exact Or.inr (List.mem_cons_of_mem _ h)
    · exact le_trans (pyMaxStep_le_left a y) hle
    · intro q hq
      rcases List.mem_cons.mp hq with rfl | hq
      · exact le_trans (pyMaxStep_le_right a q) hle
      · exact hall q hq

lemma pyMaxBySnd_spec (x : String × ℝ) (xs : List (String × ℝ)) :
    ∃ b, pyMaxBySnd (x :: xs) = some b ∧ b ∈ x :: xs ∧ ∀ q ∈ x :: xs, q.2 ≤ b.2 := by
  obtain ⟨hmem, hle, hall⟩ := foldl_pyMaxStep_spec xs x
  refine ⟨xs.foldl pyMaxStep x, rfl, ?_, ?_⟩
  · rcases hmem with h | h
    · rw [h]
      exact List.mem_cons_self x xs
    · exact List.mem_cons_of_mem _ h
  · intro q hq
    rcases List.mem_cons.mp hq with rfl | hq
    · exact hle
    · exact hall q hq

lemma linear_length (W : List (List ℝ)) (b x : List ℝ) :
    (linear W b x).length = min W.length b.length := by
  simp [linear]

lemma relu_length (x : List ℝ) : (relu x).length = x.length := by
  simp [relu]

lemma dropoutLayer_length (p : ℝ) (training : Bool) (mask : Nat → Bool) (x : List ℝ) :
    (dropoutLayer p training mask x).length = x.length := by
  unfold dropoutLayer
  split
  · simp
  · rfl

/-! Claim theorems. -/

/-- C5: for every input image, of any resolution and aspect ratio, the
transform's resized image is exactly 224x224 pixels, obtained by a direct
rescale (each target pixel samples the proportionally scaled source
coordinate), not a crop-then-resize. -/
theorem transform_resized_is_224 (img : PILImage) (apply_augmentation : Bool) :
    (SkinDiseaseTransform img apply_augmentation).resized.width = 224 ∧
    (SkinDiseaseTransform img apply_augmentation).resized.height = 224 ∧
    ∀ c x y, (SkinDiseaseTransform img apply_augmentation).resized.pix c x y =
      img.pix c (x * img.width / 224) (y * img.height / 224) :=
  ⟨rfl, rfl, fun _ _ _ => rfl⟩

/-- C6: with apply_augmentation off the flipped field equals the resized
image; with it on the flipped field is the deterministic horizontal
mirror of the resized image; and the mirror is an involution — flipping
twice restores the original picture. -/
theorem transform_flip_behavior (img : PILImage) :
    (SkinDiseaseTransform img false).flipped = (SkinDiseaseTransform img false).resized ∧
    (SkinDiseaseTransform img true).flipped =
      ((SkinDiseaseTransform img true).resized).hflip ∧
    ∀ J : PILImage, (J.hflip.hflip).sameImage J := by
  refine ⟨rfl, rfl, ?_⟩
  intro J
  refine ⟨rfl, rfl, rfl, ?_⟩
  intro c x y _ hx _
  have hx' : x < J.width := hx
  show J.pix c (J.width - 1 - (J.width - 1 - x)) y = J.pix c x y
  have hxx : J.width - 1 - (J.width - 1 - x) = x := by omega
  rw [hxx]

/-- C7: the code performs no color-mode conversion — a grayscale (mode L)
input keeps mode L through resize and flip, and the tensor handed to the
3-channel normalization has 1 channel, not 3, contrary to the claim that
non-RGB inputs are converted to 3-channel RGB before the numeric
conversion. -/
theorem transform_grayscale_not_rgb :
    grayImage.mode = ColorMode.L ∧
    (SkinDiseaseTransform grayImage false).flipped.mode = ColorMode.L ∧
    (SkinDiseaseTransform grayImage false).tensor.channels = 1 ∧ (1 : Nat) ≠ 3 :=
  ⟨rfl, rfl, rfl, by decide⟩

/-- C8: the model returned by load_model is in eval mode, and its forward
pass is deterministic — it does not depend on the dropout randomness, so
two calls on the same tensor yield identical logits; the model itself is
a value the forward pass cannot mutate. -/
theorem loaded_model_forward_deterministic (sd : StateDict) (mask1 mask2 : Nat → Bool)
    (x : Tensor3) :
    (load_model sd).training = false ∧
    (load_model sd).forward mask1 x = (load_model sd).forward mask2 x :=
  ⟨rfl, rfl⟩

/-- C9: download_model is idempotent — when the weight file already
exists it performs no fetch and returns the path with the state
unchanged, a second call after a first is always a no-op, and two
successive calls perform at most one remote download in total. -/
theorem download_model_idempotent (fs : FileSys) :
    (modelFileName ∈ fs.files → download_model fs = (modelFileName, fs)) ∧
    download_model (download_model fs).2 = (modelFileName, (download_model fs).2) ∧
    (download_model (download_model fs).2).2.downloads ≤ fs.downloads + 1 := by
  by_cases h : modelFileName ∈ fs.files
  · exact ⟨fun _ => by simp [download_model, h],
      by simp [download_model, h], by simp [download_model, h]⟩
  · exact ⟨fun hmem => absurd hmem h,
      by simp [download_model, gdown_download, h],
      by simp [download_model, gdown_download, h]⟩

/-- C4: for a model of the declared shapes, forward concatenates the
1024-dim densenet features with the 1280-dim efficientnet features into
one 2304-dim vector, the first linear layer and nonlinearity give 512
dims, the logits have length num_classes, and forward is exactly the
pipeline linear-ReLU-dropout-linear over the concatenation. -/
theorem forward_structure_and_shape (m : HybridModel) (n : Nat) (mask : Nat → Bool)
    (x : Tensor3) (h : m.wf n) :
    (m.densenet x ++ m.efficientnet x).length = 1024 + 1280 ∧
    (m.densenet x ++ m.efficientnet x).length = 2304 ∧
    (relu (linear m.fc1W m.fc1b (m.densenet x ++ m.efficientnet x))).length = 512 ∧
    (m.forward mask x).length = n ∧
    m.forward mask x = linear m.fc2W m.fc2b (dropoutLayer 0.5 m.training mask
      (relu (linear m.fc1W m.fc1b (m.densenet x ++ m.efficientnet x)))) := by
  obtain ⟨hd, he, h1W, h1b, _, h2W, h2b, _⟩ := h
  have hf : m.forward mask x = linear m.fc2W m.fc2b (dropoutLayer 0.5 m.training mask
      (relu (linear m.fc1W m.fc1b (m.densenet x ++ m.efficientnet x)))) := rfl
  refine ⟨by simp [hd x, he x], by simp [hd x, he x], ?_, ?_, hf⟩
  · rw [relu_length, linear_length, h1W, h1b]
    simp
  · rw [hf, linear_length, h2W, h2b]
    simp

/-- Witness for C4 at the all-zero model of the reference shapes and the
all-zero input tensor. -/
theorem forward_structure_and_shape_witness :
    (zeroModel.forward (fun _ => false) zeroTensor).length = 2 := by
  have hwf : zeroModel.wf 2 := by
    refine ⟨fun x => ?_, fun x => ?_, ?_, ?_, ?_, ?_, ?_, ?_⟩
    · show (List.replicate 1024 (0 : ℝ)).length = 1024
      exact List.length_replicate _ _
    · show (List.replicate 1280 (0 : ℝ)).length = 1280
      exact List.length_replicate _ _
    · show (List.replicate 512 (List.replicate (1024 + 1280) (0 : ℝ))).length = 512
      exact List.length_replicate _ _
    · show (List.replicate 512 (0 : ℝ)).length = 512
      exact List.length_replicate _ _
    · intro row hrow
      have hrow' : row ∈ List.replicate 512 (List.replicate (1024 + 1280) (0 : ℝ)) := hrow
      rw [List.eq_of_mem_replicate hrow']
      exact List.length_replicate _ _
    · show (List.replicate 2 (List.replicate 512 (0 : ℝ))).length = 2
      exact List.length_replicate _ _
    · show (List.replicate 2 (0 : ℝ)).length = 2
      exact List.length_replicate _ _
    · intro row hrow
      have hrow' : row ∈ List.replicate 2 (List.replicate 512 (0 : ℝ)) := hrow
      rw [List.eq_of_mem_replicate hrow']
      exact List.length_replicate _ _
  exact (forward_structure_and_shape zeroModel 2 (fun _ => false) zeroTensor hwf).2.2.2.1

/-- C1 counterexample: for the empty label set and the empty logits
vector (which satisfy len(L) == len(v)), predict succeeds with the empty
confidence map, whose values sum to 0, not to 1 within 1e-6. -/
theorem predict_empty_labels_sum_ne_one :
    ∃ conf, predictLogits ([] : List String) ([] : List ℝ) = some conf ∧
      (conf.map Prod.snd).sum = 0 ∧ ¬ |(conf.map Prod.snd).sum - 1| ≤ 1 / 1000000 := by
  refine ⟨[], rfl, by simp, ?_⟩
  simp only [List.map_nil, List.sum_nil]
  rw [not_le]
  have habs : |(0 : ℝ) - 1| = 1 := by
    rw [abs_sub_comm]
    simp
  rw [habs]
  norm_num

/-- C1 (amended): for every nonempty label set L of distinct labels and
every logits vector v of the same length, predict yields a confidence
map whose keys are exactly L and whose values, the softmax of v, sum to
exactly 1, in particular to 1 within 1e-6. -/
theorem predict_nonempty_keys_sum_one (L : List String) (v : List ℝ)
    (hnd : L.Nodup) (hne : L ≠ []) (hlen : L.length = v.length) :
    ∃ conf, predictLogits L v = some conf ∧ conf.map Prod.fst = L ∧
      (conf.map Prod.snd).sum = 1 ∧ |(conf.map Prod.snd).sum - 1| ≤ 1 / 1000000 := by
  have hvne : v ≠ [] := by
    intro hv
    subst hv
    simp only [List.length_nil] at hlen
    exact hne (List.eq_nil_of_length_eq_zero hlen)
  have hle : L.length ≤ (softmax v).length := le_of_eq (by rw [softmax_length, hlen])
  have hge : (softmax v).length ≤ L.length := le_of_eq (by rw [softmax_length, hlen])
  have hkeys : (L.zip (softmax v)).map Prod.fst = L := List.map_fst_zip _ _ hle
  have hvals : (L.zip (softmax v)).map Prod.snd = softmax v := List.map_snd_zip _ _ hge
  have hdict : pyDictOfPairs (L.zip (softmax v)) = L.zip (softmax v) := by
    apply pyDictOfPairs_nodup
    rw [hkeys]
    exact hnd
  refine ⟨L.zip (softmax v), ?_, hkeys, ?_, ?_⟩
  · simp only [predictLogits]
    rw [if_pos hle, hdict]
  · rw [hvals]
    exact softmax_sum_one v hvne
  · rw [hvals, softmax_sum_one v hvne]
    norm_num

/-- Witness for C1 at the label set of the application and zero logits. -/
theorem predict_nonempty_keys_sum_one_witness :
    ∃ conf, predictLogits ["acne", "eczema"] [(0 : ℝ), 0] = some conf ∧
      conf.map Prod.fst = ["acne", "eczema"] ∧
      (conf.map Prod.snd).sum = 1 ∧ |(conf.map Prod.snd).sum - 1| ≤ 1 / 1000000 :=
  predict_nonempty_keys_sum_one ["acne", "eczema"] [0, 0]
    (by simp) (by simp) (by simp)

/-- C3 counterexample: with a label set strictly shorter than the
probability vector (one label, two logits), predict raises no error — it
silently returns a confidence map truncated to the single given label. -/
theorem predict_shorter_labels_truncates :
    ∃ conf, predictLogits ["acne"] [(0 : ℝ), 0] = some conf ∧
      conf.map Prod.fst = ["acne"] := by
  refine ⟨_, rfl, ?_⟩
  rfl

/-- C3 (amended): building the confidence map fails (the IndexError of
probabilities[0][i]) exactly when the label set is longer than the
probability vector; when it is shorter the map is built without error,
silently truncated to the labels given. -/
theorem predict_error_iff_labels_longer (class_names : List String) (v : List ℝ) :
    predictLogits class_names v = none ↔ v.length < class_names.length := by
  by_cases h : class_names.length ≤ v.length
  · have hsome : predictLogits class_names v =
        some (pyDictOfPairs (class_names.zip (softmax v))) := by
      simp only [predictLogits]
      rw [if_pos (by rw [softmax_length]; exact h)]
    rw [hsome]
    simp
    omega
  · have hnone : predictLogits class_names v = none := by
      simp only [predictLogits]
      rw [if_neg (by rw [softmax_length]; exact h)]
    rw [hnone]
    simp
    omega

/-- C2: the top-1 decision threshold is inclusive at 0.95 — writing p for
the first maximal pair of the confidence map, the displayed diagnosis is
the fallback "Néant" when p's confidence is strictly below 0.95 and the
(capitalized) top label when it is 0.95 or more. -/
theorem diagnosis_threshold_inclusive (conf : List (String × ℝ)) (p : String × ℝ)
    (hp : pyMaxBySnd conf = some p) :
    p ∈ conf ∧ (∀ q ∈ conf, q.2 ≤ p.2) ∧
    (p.2 < 0.95 → displayedDiagnosis conf = some "Néant") ∧
    (0.95 ≤ p.2 → displayedDiagnosis conf = some p.1.capitalize) := by
  cases conf with
  | nil => exact absurd hp (by simp [pyMaxBySnd])
  | cons x xs =>
    obtain ⟨b, hb, hbmem, hball⟩ := pyMaxBySnd_spec x xs
    rw [hb] at hp
    injection hp with hp
    subst hp
    refine ⟨hbmem, hball, ?_, ?_⟩
    · intro hlt
      unfold displayedDiagnosis
      rw [hb]
      simp [hlt]
    · intro hge
      have hnlt := not_lt.mpr hge
      unfold displayedDiagnosis
      rw [hb]
      simp [hnlt]

/-- Witness for C2 at a confidence map whose maximum is exactly 0.95: the
boundary is inclusive, so the top label is reported. -/
theorem diagnosis_threshold_inclusive_witness :
    displayedDiagnosis [("acne", (0.95 : ℝ)), ("eczema", 0.05)] =
      some (String.capitalize "acne") := by
  have hp : pyMaxBySnd [("acne", (0.95 : ℝ)), ("eczema", 0.05)] =
      some ("acne", (0.95 : ℝ)) := by
    show some (List.foldl pyMaxStep ("acne", (0.95 : ℝ)) [("eczema", 0.05)]) = _
    rw [List.foldl_cons, List.foldl_nil]
    unfold pyMaxStep
    rw [if_neg (by norm_num)]
  exact (diagnosis_threshold_inclusive _ _ hp).2.2.2 (le_refl _)

/-- C10: with the application's fixed two-element label set and a
length-2 logits vector, the two softmax confidences sum to 1, so the top
confidence reported by predict is always at least 1/2; consequently every
below-threshold (none/uncertain) diagnosis still has its top confidence
in the interval [0.5, 0.95). -/
theorem two_label_max_confidence_ge_half (v : List ℝ) (h2 : v.length = 2) :
    ∃ conf p, predictLogits ["acne", "eczema"] v = some conf ∧
      pyMaxBySnd conf = some p ∧ (1 : ℝ) / 2 ≤ p.2 ∧
      (p.2 < 0.95 → (1 : ℝ) / 2 ≤ p.2 ∧ p.2 < 0.95) := by
  cases v with
  | nil => exact absurd h2 (by decide)
  | cons a t =>
    cases t with
    | nil => exact absurd h2 (by simp)
    | cons b u =>
      cases u with
      | cons c w =>
        exfalso
        simp only [List.length_cons] at h2
        omega
      | nil =>
        have hs1 : (softmax [a, b]).sum = 1 := softmax_sum_one _ (by simp)
        have hsm : softmax [a, b] =
            [Real.exp a / (Real.exp a + Real.exp b),
             Real.exp b / (Real.exp a + Real.exp b)] := by
          simp [softmax]
        set P := Real.exp a / (Real.exp a + Real.exp b) with hP
        set Q := Real.exp b / (Real.exp a + Real.exp b) with hQ
        have hps : P + Q = 1 := by
          rw [hsm] at hs1
          simpa using hs1
        have hnodup : (([("acne", P), ("eczema", Q)]).map Prod.fst).Nodup := by simp
        have hconf : predictLogits ["acne", "eczema"] [a, b] =
            some [("acne", P), ("eczema", Q)] := by
          simp only [predictLogits]
          rw [if_pos (by simp [softmax_length]), hsm]
          rw [show (["acne", "eczema"].zip [P, Q]) = [("acne", P), ("eczema", Q)] from rfl]
          rw [pyDictOfPairs_nodup _ hnodup]
        have hmax : pyMaxBySnd [("acne", P), ("eczema", Q)] =
            some (pyMaxStep ("acne", P) ("eczema", Q)) := rfl
        by_cases hlt : P < Q
        · have hstep : pyMaxStep ("acne", P) ("eczema", Q) = ("eczema", Q) := by
            simp [pyMaxStep, hlt]
          refine ⟨_, ("eczema", Q), hconf, by rw [hmax, hstep], ?_, ?_⟩
          · show (1 : ℝ) / 2 ≤ Q
            linarith
          · intro h
            refine ⟨?_, h⟩
            show (1 : ℝ) / 2 ≤ Q
            linarith
        · have hqp : Q ≤ P := not_lt.mp hlt
          have hstep : pyMaxStep ("acne", P) ("eczema", Q) = ("acne", P) := by
            simp [pyMaxStep, hlt]
          refine ⟨_, ("acne", P), hconf, by rw [hmax, hstep], ?_, ?_⟩
          · show (1 : ℝ) / 2 ≤ P
            linarith
          · intro h
            refine ⟨?_, h⟩
            show (1 : ℝ) / 2 ≤ P
            linarith

/-- Witness for C10 at zero logits: both confidences are 1/2, so the top
confidence is exactly 1/2 and below the 0.95 threshold. -/
theorem two_label_max_confidence_ge_half_witness :
    ∃ conf p, predictLogits ["acne", "eczema"] [(0 : ℝ), 0] = some conf ∧
      pyMaxBySnd conf = some p ∧ (1 : ℝ) / 2 ≤ p.2 ∧
      (p.2 < 0.95 → (1 : ℝ) / 2 ≤ p.2 ∧ p.2 < 0.95) :=
  two_label_max_confidence_ge_half [0, 0] (by simp)

end SkinApp
